import Mathlib

/-!
# goproxy: the plain-request forwarding path of `internal/proxy.go`

A shallow embedding of `ProxyHttpServer` (`removeProxyRelatedHeaders`,
`copyHeaders`, `ServeHTTP`, `NewProxyHttpServer`) together with the parts of
Go's `net/http` the code calls: `Header` (`Del`, `Add`, `Set`, `Values`),
`ResponseWriter` (`WriteHeader`, `Write`), `http.Error`, `io.Copy` and
`atomic.AddInt64`.

Modelling conventions
* a Go `string` is a `String`, a `[]byte` is a `List UInt8`;
* a Go map `map[string][]string` is an association list; the order of the
  list is the order in which `range` visits the map, so a statement proved for
  every list holds for every iteration order;
* `int64` is an `Int` wrapped by `wrapInt64` after every addition;
* a non-nil `error` is the text its `Error()` method returns, a nil `error` or
  a nil pointer is `none`;
* the `zap` log calls write to the log only and are left out;
* a call that panics is recorded in the `panic` field of the outcome.
-/

namespace GoProxy

/-! ## Go values -/

/-- A non-nil Go `error`, identified with the text of `Error()`. -/
abbrev GoError := String

/-- Two's-complement wrap-around of a mathematical integer into `int64`. -/
def wrapInt64 (x : Int) : Int := (x + 2 ^ 63) % 2 ^ 64 - 2 ^ 63

/-- The largest `int64`. -/
def maxInt64 : Int := 2 ^ 63 - 1

/-- The smallest `int64`. -/
def minInt64 : Int := -(2 ^ 63)

/-- The bytes of a Go string (its UTF-8 encoding). -/
def stringBytes (s : String) : List UInt8 := s.data.flatMap String.utf8EncodeChar

/-! ## `net/textproto`: canonical header keys -/

/-- The token characters of a header field name (`validHeaderFieldByte`):
digits, letters and the punctuation `! # $ % & ' * + - . ^ _` , backtick,
`|` and `~`. -/
def validHeaderFieldByte (c : Char) : Bool :=
  let n := c.toNat
  (48 ≤ n && n ≤ 57) || (65 ≤ n && n ≤ 90) || (97 ≤ n && n ≤ 122) ||
  n = 33 || n = 35 || n = 36 || n = 37 || n = 38 || n = 39 || n = 42 || n = 43 ||
  n = 45 || n = 46 || n = 94 || n = 95 || n = 96 || n = 124 || n = 126

/-- The canonicalising loop of `canonicalMIMEHeaderKey`: the first letter and
every letter after a dash become upper case, all other letters lower case. -/
def canonLoop : Bool → List Char → List Char
  | _, [] => []
  | upper, c :: cs =>
    let c1 :=
      if upper && 97 ≤ c.toNat && c.toNat ≤ 122 then Char.ofNat (c.toNat - 32)
      else if !upper && 65 ≤ c.toNat && c.toNat ≤ 90 then Char.ofNat (c.toNat + 32)
      else c
    c1 :: canonLoop (c1 == '-') cs

/-- Go's `textproto.CanonicalMIMEHeaderKey`: a key made of token characters only
is canonicalised, any other key is returned unchanged. -/
def CanonicalMIMEHeaderKey (s : String) : String :=
  if s.data.all validHeaderFieldByte then String.mk (canonLoop true s.data) else s

/-! ## `net/http`: `Header` -/

/-- Go's `http.Header`, a `map[string][]string`, as an association list in
iteration order. A nil map is the empty list. -/
abbrev Header := List (String × List String)

namespace Header

/-- The keys of the map. -/
def keys (h : Header) : List String := h.map Prod.fst

/-- A header map is well formed when no key occurs twice, as in a Go map. -/
def WF (h : Header) : Prop := (keys h).Nodup

/-- The map index `h[k]`: the values stored under the raw key `k`, nil when
the key is absent. -/
def get : Header → String → List String
  | [], _ => []
  | e :: t, k => if e.1 = k then e.2 else get t k

/-- The map assignment `h[k] = vs`. -/
def put : Header → String → List String → Header
  | [], k, vs => [(k, vs)]
  | e :: t, k, vs => if e.1 = k then (k, vs) :: t else e :: put t k vs

/-- The builtin `delete(h, k)` on the raw key `k`. -/
def delete (h : Header) (k : String) : Header := h.filter (fun e => e.1 != k)

/-- Go's `Header.Del(key)`: `delete(h, CanonicalMIMEHeaderKey(key))`. -/
def Del (h : Header) (key : String) : Header := delete h (CanonicalMIMEHeaderKey key)

/-- Go's `Header.Add(key, value)`: `key = CanonicalMIMEHeaderKey(key);
h[key] = append(h[key], value)`. -/
def Add (h : Header) (key value : String) : Header :=
  let k := CanonicalMIMEHeaderKey key
  put h k (get h k ++ [value])

/-- Go's `Header.Set(key, value)`: `h[CanonicalMIMEHeaderKey(key)] = []string{value}`. -/
def Set (h : Header) (key value : String) : Header :=
  put h (CanonicalMIMEHeaderKey key) [value]

/-- Go's `Header.Values(key)`: `h[CanonicalMIMEHeaderKey(key)]`. -/
def Values (h : Header) (key : String) : List String :=
  get h (CanonicalMIMEHeaderKey key)

end Header

/-! ## `net/http`: requests, responses, the response writer -/

/-- The fields of `url.URL` the proxy looks at. -/
structure URL where
  Scheme : String
  Host : String
  Path : String
  RawQuery : String
deriving DecidableEq

/-- Go's `(*URL).IsAbs`: `u.Scheme != ""`. -/
def URL.IsAbs (u : URL) : Bool := u.Scheme != ""

/-- An `http.Request` (the request URL is never nil for a request the server
hands to a handler). -/
structure Request where
  Method : String
  URL : URL
  Header : Header
  Body : List UInt8
  Host : String
deriving DecidableEq

/-- A response body as an `io.ReadCloser`: the chunks successive `Read` calls
deliver, then `io.EOF` (`err = none`) or a read error. -/
structure Body where
  chunks : List (List UInt8)
  err : Option GoError
deriving DecidableEq

/-- An `http.Response`. -/
structure Response where
  StatusCode : Int
  Header : Header
  Body : Body
deriving DecidableEq

/-- An `http.ResponseWriter` that records what the handler sends: `header` is the
map `w.Header()` returns, `wroteHeader` tells whether a status line went out,
`sent` is the header set that went out with it, `status` the status code of
that line, `body` the bytes written. Every write is accepted. -/
structure ResponseWriter where
  header : Header
  wroteHeader : Bool
  status : Int
  sent : Header
  body : List UInt8
deriving DecidableEq

namespace ResponseWriter

/-- The writer the server hands to a handler: nothing set, nothing sent. -/
def fresh : ResponseWriter :=
  { header := [], wroteHeader := false, status := 0, sent := [], body := [] }

/-- Go's `WriteHeader(code)`: a call after the status line went out is ignored;
otherwise `checkWriteHeaderCode` panics for a code outside `100..999` (`none`),
and for a code inside it the status line goes out with the header map as it is
at that moment. Every code in `100..999` is final here, as for
`httptest.ResponseRecorder`; the server's own writer sends a `1xx` code other
than 101 as an interim response, and the transport does not return such
responses. -/
def WriteHeader (w : ResponseWriter) (code : Int) : Option ResponseWriter :=
  if w.wroteHeader then some w
  else if code < 100 ∨ code > 999 then none
  else some { w with wroteHeader := true, status := code, sent := w.header }

/-- Go's `Write(p)`: when no status line went out yet, `WriteHeader(200)` first,
then the bytes; returns the writer, the count written and the error. -/
def Write (w : ResponseWriter) (p : List UInt8) : ResponseWriter × Nat × Option GoError :=
  let w1 := if w.wroteHeader then w
    else { w with wroteHeader := true, status := 200, sent := w.header }
  ({ w1 with body := w1.body ++ p }, p.length, none)

end ResponseWriter

/-- The message of the panic `WriteHeader` raises for an invalid status code. -/
def invalidWriteHeaderCode (code : Int) : String :=
  "invalid WriteHeader code " ++ toString code

/-- Go's `http.Error(w, error, code)`: sets `Content-Type` and
`X-Content-Type-Options`, writes the status line and prints the message followed
by a newline (`fmt.Fprintln`); `none` when `WriteHeader` panics. Releases of Go
from 1.23 on also delete `Content-Length` from the map first; the status and the
body are the same. -/
def httpError (w : ResponseWriter) (error : String) (code : Int) : Option ResponseWriter :=
  let h := w.header.Set "Content-Type" "text/plain; charset=utf-8"
  let h := h.Set "X-Content-Type-Options" "nosniff"
  match ResponseWriter.WriteHeader { w with header := h } code with
  | none => none
  | some w1 => some (ResponseWriter.Write w1 (stringBytes (error ++ "\n"))).1

/-- The loop of Go's `io.Copy(dst, src)` on the chunks the source delivers:
every non-empty chunk is written to `dst`; a failed or short write stops the
copy, so does the end of the source. Returns the writer, the bytes written and
the error (`none` when the source ended with `io.EOF`). -/
def ioCopyLoop : ResponseWriter → List (List UInt8) → Option GoError →
    ResponseWriter × Nat × Option GoError
  | w, [], er => (w, 0, er)
  | w, c :: cs, er =>
    if c.length = 0 then ioCopyLoop w cs er
    else
      let res := ResponseWriter.Write w c
      match res.2.2 with
      | some ew => (res.1, res.2.1, some ew)
      | none =>
        if res.2.1 ≠ c.length then (res.1, res.2.1, some "short write")
        else
          let rest := ioCopyLoop res.1 cs er
          (rest.1, res.2.1 + rest.2.1, rest.2.2)

/-- Go's `io.Copy(w, body)`. -/
def ioCopy (w : ResponseWriter) (b : Body) : ResponseWriter × Nat × Option GoError :=
  ioCopyLoop w b.chunks b.err

/-- An `http.Handler` that returns: what `ServeHTTP(w, r)` leaves on the writer. -/
abbrev Handler := ResponseWriter → Request → ResponseWriter

/-- The pair `(resp, err)` a `RoundTrip` returns; either may be nil. -/
structure RoundTripResult where
  resp : Option Response
  err : Option GoError
deriving DecidableEq

/-- The `RoundTrip` of an `*http.Transport`: the network's answer to a request. -/
abbrev Transport := Request → RoundTripResult

/-! ## `internal/proxy.go` -/

/-- The constant `ConnectNormal`. -/
def ConnectNormal : Int := 0

/-- The constant `ConnectMitm`. -/
def ConnectMitm : Int := 1

/-- The struct `ProxyHttpServer`. -/
structure ProxyHttpServer where
  Sess : Int
  NonSupportHandler : Handler
  Tr : Transport
  ProxyType : Int

/-- The struct `ProxyCtx` as `ServeHTTP` builds it: the request and the session
identifier. -/
structure ProxyCtx where
  Req : Request
  Sess : Int
deriving DecidableEq

/-- The five header names `removeProxyRelatedHeaders` deletes, in the order of
the source. -/
def proxyRelatedHeaders : List String :=
  ["Accept-Encoding", "Proxy-Connection", "Proxy-Authenticate", "Proxy-Authorization",
    "Connection"]

/-- The method `removeProxyRelatedHeaders`: five `r.Header.Del` calls. -/
def removeProxyRelatedHeaders (r : Request) : Request :=
  let h := r.Header.Del "Accept-Encoding"
  let h := h.Del "Proxy-Connection"
  let h := h.Del "Proxy-Authenticate"
  let h := h.Del "Proxy-Authorization"
  let h := h.Del "Connection"
  { r with Header := h }

/-- The method `copyHeaders`: for every entry `k, vlist` of `src` and every `v` of
`vlist`, `dst.Add(k, v)`. -/
def copyHeaders (dst src : Header) : Header :=
  src.foldl (fun d e => e.2.foldl (fun d1 v => d1.Add e.1 v) d) dst

/-- The calls `ServeHTTP` makes on its collaborators. -/
inductive Call where
  | handleHttps (ctx : ProxyCtx)
  | nonSupport (r : Request)
  | roundTrip (r : Request)
deriving DecidableEq

/-- What a call of `handleHttps` leaves behind. -/
structure Effects where
  proxy : ProxyHttpServer
  w : ResponseWriter
  r : Request
  calls : List Call
  panic : Option String

/-- The method `handleHttps`, which is not part of `proxy.go`: it receives the
server, the writer, the request and the context. -/
abbrev HandleHttps := ProxyHttpServer → ResponseWriter → Request → ProxyCtx → Effects

/-- The state after a call of `ServeHTTP`: the server, the writer, the request,
the session identifier given to the request, the calls made, and the panic
message when the call did not return. -/
structure Outcome where
  proxy : ProxyHttpServer
  w : ResponseWriter
  r : Request
  sess : Int
  calls : List Call
  panic : Option String

/-- The run-time panic of calling a method on a nil interface value. -/
def nilDereference : String :=
  "runtime error: invalid memory address or nil pointer dereference"

/-- The method `ServeHTTP`. -/
def ServeHTTP (handleHttps : HandleHttps) (proxy : ProxyHttpServer) (w : ResponseWriter)
    (r : Request) : Outcome :=
  -- ctx := ProxyCtx{Req: r, Sess: atomic.AddInt64(&proxy.Sess, 1)}
  let sess := wrapInt64 (proxy.Sess + 1)
  let proxy := { proxy with Sess := sess }
  let ctx : ProxyCtx := { Req := r, Sess := sess }
  if r.Method = "CONNECT" then
    let e := handleHttps proxy w r ctx
    { proxy := e.proxy, w := e.w, r := e.r, sess := ctx.Sess,
      calls := Call.handleHttps ctx :: e.calls, panic := e.panic }
  else
    if !r.URL.IsAbs then
      { proxy := proxy, w := proxy.NonSupportHandler w r, r := r, sess := ctx.Sess,
        calls := [Call.nonSupport r], panic := none }
    else
      let r := removeProxyRelatedHeaders r
      let res := proxy.Tr r
      if res.err ≠ none ∨ res.resp = none then
        match res.err with
        | none =>
          -- err.Error() on a nil error
          { proxy := proxy, w := w, r := r, sess := ctx.Sess,
            calls := [Call.roundTrip r], panic := some nilDereference }
        | some err =>
          let errorString := "Received error status: " ++ err
          match httpError w errorString 500 with
          | none =>
            -- not reached: 500 is a valid status code
            { proxy := proxy, w := w, r := r, sess := ctx.Sess,
              calls := [Call.roundTrip r], panic := some (invalidWriteHeaderCode 500) }
          | some w =>
            { proxy := proxy, w := w, r := r, sess := ctx.Sess,
              calls := [Call.roundTrip r], panic := none }
      else
        match res.resp with
        | none =>
          -- not reached: resp is not nil on this side of the test
          { proxy := proxy, w := w, r := r, sess := ctx.Sess,
            calls := [Call.roundTrip r], panic := some nilDereference }
        | some resp =>
          -- defer resp.Body.Close() releases the upstream body and writes nothing
          let w := { w with header := copyHeaders w.header resp.Header }
          match w.WriteHeader resp.StatusCode with
          | none =>
            -- WriteHeader panics: the header map is filled, nothing went out
            { proxy := proxy, w := w, r := r, sess := ctx.Sess,
              calls := [Call.roundTrip r],
              panic := some (invalidWriteHeaderCode resp.StatusCode) }
          | some w =>
            let copied := ioCopy w resp.Body
            { proxy := proxy, w := copied.1, r := r, sess := ctx.Sess,
              calls := [Call.roundTrip r], panic := none }

/-- The diagnostic text of the handler `NewProxyHttpServer` installs. -/
def nonSupportMessage : String :=
  "[Session: %v] This is a proxy server, your request cannot be recognized."

/-- The function `NewProxyHttpServer`; `tr` is the behaviour of the zero-valued
`http.Transport` it allocates. The fields it leaves out are zero. The handler is
`http.Error(w, nonSupportMessage, 500)`, which returns because 500 is a valid
status code. -/
def NewProxyHttpServer (tr : Transport) : ProxyHttpServer :=
  { Sess := 0
    NonSupportHandler := fun w _ => (httpError w nonSupportMessage 500).getD w
    Tr := tr
    ProxyType := 0 }

/-- Handling a sequence of requests one after the other on the same server: the
outcomes in handling order. -/
def serveAll (handleHttps : HandleHttps) :
    ProxyHttpServer → List (ResponseWriter × Request) → List Outcome
  | _, [] => []
  | proxy, q :: qs =>
    let o := ServeHTTP handleHttps proxy q.1 q.2
    o :: serveAll handleHttps o.proxy qs

/-- The server after handling a sequence of requests. -/
def serverAfter (handleHttps : HandleHttps) :
    ProxyHttpServer → List (ResponseWriter × Request) → ProxyHttpServer
  | proxy, [] => proxy
  | proxy, q :: qs => serverAfter handleHttps (ServeHTTP handleHttps proxy q.1 q.2).proxy qs


/-! ## Sample inputs -/

/-- A request to forward: `GET http://example.com/path` carrying proxy headers. -/
def sampleGet : Request :=
  { Method := "GET"
    URL := { Scheme := "http", Host := "example.com", Path := "/path", RawQuery := "" }
    Header := [("Proxy-Connection", ["keep-alive"]), ("User-Agent", ["curl/8.0"]),
      ("Accept-Encoding", ["gzip", "br"]), ("Connection", ["close"])]
    Body := []
    Host := "example.com" }

/-- A request in origin form, as sent to an origin server: `GET /index.html`. -/
def sampleRelative : Request :=
  { Method := "GET"
    URL := { Scheme := "", Host := "", Path := "/index.html", RawQuery := "" }
    Header := [("Connection", ["keep-alive"]), ("User-Agent", ["curl/8.0"])]
    Body := []
    Host := "example.com" }

/-- A tunnel request: `CONNECT example.com:443`; its URL has no scheme. -/
def sampleConnect : Request :=
  { Method := "CONNECT"
    URL := { Scheme := "", Host := "example.com:443", Path := "", RawQuery := "" }
    Header := [("Proxy-Connection", ["keep-alive"])]
    Body := []
    Host := "example.com:443" }

/-- An origin response with a repeated header value and a body read in three
chunks, the second of them empty. -/
def sampleResponse : Response :=
  { StatusCode := 404
    Header := [("Set-Cookie", ["a=1", "b=2", "a=1"]), ("Content-Type", ["text/html"])]
    Body := { chunks := [[104, 105], [], [33]], err := none } }

/-- A transport whose round trips succeed with `sampleResponse`. -/
def trOk : Transport := fun _ => { resp := some sampleResponse, err := none }

/-- A transport whose round trips fail with a dial error. -/
def trErr : Transport := fun _ => { resp := none, err := some "dial tcp: connection refused" }

/-- A transport whose round trips return a nil response and a nil error. -/
def trNil : Transport := fun _ => { resp := none, err := none }

/-- A tunnel handler that acknowledges the tunnel with status 200 and leaves the
server and the request alone. -/
def tunnelAck : HandleHttps := fun proxy w r _ =>
  { proxy := proxy, w := (w.Write []).1, r := r, calls := [], panic := none }

/-- An origin response whose status line reads `HTTP/1.1 000`: the status code
is 0. Its body is read without error. -/
def sampleInvalidStatus : Response :=
  { StatusCode := 0
    Header := [("Content-Length", ["3"])]
    Body := { chunks := [[104, 105, 33]], err := none } }

/-- A transport whose round trips succeed with `sampleInvalidStatus`. -/
def trInvalidStatus : Transport := fun _ => { resp := some sampleInvalidStatus, err := none }

/-- A server whose session counter is one below the largest `int64`. -/
def nearOverflow : ProxyHttpServer :=
  { NewProxyHttpServer trErr with Sess := maxInt64 - 1 }

/-! ## Header lemmas -/

theorem canonical_acceptEncoding :
    CanonicalMIMEHeaderKey "Accept-Encoding" = "Accept-Encoding" := by decide

theorem canonical_proxyConnection :
    CanonicalMIMEHeaderKey "Proxy-Connection" = "Proxy-Connection" := by decide

theorem canonical_proxyAuthenticate :
    CanonicalMIMEHeaderKey "Proxy-Authenticate" = "Proxy-Authenticate" := by decide

theorem canonical_proxyAuthorization :
    CanonicalMIMEHeaderKey "Proxy-Authorization" = "Proxy-Authorization" := by decide

theorem canonical_connection :
    CanonicalMIMEHeaderKey "Connection" = "Connection" := by decide

theorem canonical_of_mem {n : String} (hn : n ∈ proxyRelatedHeaders) :
    CanonicalMIMEHeaderKey n = n := by
  simp only [proxyRelatedHeaders, List.mem_cons, List.mem_singleton, List.not_mem_nil,
    or_false] at hn
  rcases hn with h | h | h | h | h <;> subst h <;> decide

namespace Header

theorem get_put (h : Header) (k : String) (vs : List String) (k1 : String) :
    get (put h k vs) k1 = if k1 = k then vs else get h k1 := by
  induction h with
  | nil =>
    by_cases hk : k = k1
    · subst hk; simp [put, get]
    · have hk1 : ¬ k1 = k := fun e => hk e.symm
      simp [put, get, hk, hk1]
  | cons e t ih =>
    by_cases he : e.1 = k
    · by_cases hk : k = k1
      · subst hk; simp [put, get, he]
      · have hk1 : ¬ k1 = k := fun e => hk e.symm
        have hek : ¬ e.1 = k1 := by rw [he]; exact hk
        simp [put, get, he, hk, hk1]
    · by_cases hk : e.1 = k1
      · have hk1 : ¬ k1 = k := by rw [← hk]; exact he
        simp [put, get, he, hk, hk1]
      · simp [put, get, he, hk, ih]

theorem get_filter_of_keep (p : String → Bool) (h : Header) (k : String) (hk : p k = true) :
    get (h.filter (fun e => p e.1)) k = get h k := by
  induction h with
  | nil => rfl
  | cons e t ih =>
    by_cases hp : p e.1 = true
    · simp [List.filter_cons, hp, get, ih]
    · have hne : ¬ e.1 = k := by
        intro heq; rw [heq] at hp; exact hp hk
      simp [List.filter_cons, hp, get, ih, hne]

theorem not_mem_keys_filter (p : String → Bool) (h : Header) (k : String) (hk : p k = false) :
    k ∉ keys (h.filter (fun e => p e.1)) := by
  intro hmem
  simp only [keys, List.mem_map, List.mem_filter] at hmem
  obtain ⟨e, ⟨_, hp⟩, rfl⟩ := hmem
  rw [hk] at hp
  exact Bool.false_ne_true hp

theorem get_of_not_mem_keys (h : Header) (k : String) (hk : k ∉ keys h) : get h k = [] := by
  induction h with
  | nil => rfl
  | cons e t ih =>
    simp only [keys, List.map_cons, List.mem_cons, not_or] at hk
    have hne : ¬ e.1 = k := fun heq => hk.1 heq.symm
    simp only [get, hne, if_false]
    exact ih hk.2

end Header

/-- The header map `removeProxyRelatedHeaders` leaves: the entries whose key is
none of the five names, in their order. -/
theorem removeProxyRelatedHeaders_Header (r : Request) :
    (removeProxyRelatedHeaders r).Header =
      r.Header.filter (fun e => !(proxyRelatedHeaders.contains e.1)) := by
  simp only [removeProxyRelatedHeaders, Header.Del, Header.delete, canonical_acceptEncoding,
    canonical_proxyConnection, canonical_proxyAuthenticate, canonical_proxyAuthorization,
    canonical_connection, List.filter_filter]
  apply List.filter_congr
  intro e _
  simp only [proxyRelatedHeaders, List.contains_cons, List.contains_nil, Bool.or_false,
    Bool.not_or, bne, Bool.and_assoc]
  cases (e.1 == "Accept-Encoding") <;> cases (e.1 == "Proxy-Connection") <;>
    cases (e.1 == "Proxy-Authenticate") <;> cases (e.1 == "Proxy-Authorization") <;>
    cases (e.1 == "Connection") <;> rfl


/-! ## The header sanitizer -/

theorem removeProxyRelatedHeaders_sanitized (r : Request) (n : String)
    (hn : n ∈ proxyRelatedHeaders) :
    n ∉ Header.keys (removeProxyRelatedHeaders r).Header := by
  rw [removeProxyRelatedHeaders_Header]
  apply Header.not_mem_keys_filter (fun k => !(proxyRelatedHeaders.contains k))
  simpa using hn

theorem removeProxyRelatedHeaders_fixed (r : Request)
    (h : ∀ n ∈ proxyRelatedHeaders, n ∉ Header.keys r.Header) :
    removeProxyRelatedHeaders r = r := by
  have hH : (removeProxyRelatedHeaders r).Header = r.Header := by
    rw [removeProxyRelatedHeaders_Header, List.filter_eq_self]
    intro e he
    have hk : e.1 ∈ Header.keys r.Header := List.mem_map_of_mem Prod.fst he
    have : e.1 ∉ proxyRelatedHeaders := fun hmem => h e.1 hmem hk
    simpa using this
  cases r
  simp only [removeProxyRelatedHeaders] at hH ⊢
  simp only [hH]

/-- C9. `removeProxyRelatedHeaders` is idempotent: applying it twice gives exactly
the request that applying it once gives, and it leaves a request unchanged
exactly when the request carries none of the five headers (so it changes nothing
on an already sanitized request). -/
theorem removeProxyRelatedHeaders_idempotent (r : Request) :
    removeProxyRelatedHeaders (removeProxyRelatedHeaders r) = removeProxyRelatedHeaders r ∧
    (removeProxyRelatedHeaders r = r ↔
      ∀ n ∈ proxyRelatedHeaders, n ∉ Header.keys r.Header) := by
  refine ⟨removeProxyRelatedHeaders_fixed _ (removeProxyRelatedHeaders_sanitized r), ?_,
    removeProxyRelatedHeaders_fixed r⟩
  intro heq n hn
  rw [← heq]
  exact removeProxyRelatedHeaders_sanitized r n hn

/-- C10. `removeProxyRelatedHeaders` changes nothing but the five headers: under
every key that is none of the five names the list of values is the same after the
call as before, the entries that stay keep their order, and the method, the URL,
the body and the host of the request are untouched. -/
theorem removeProxyRelatedHeaders_frame (r : Request) (k : String)
    (hk : k ∉ proxyRelatedHeaders) :
    Header.get (removeProxyRelatedHeaders r).Header k = Header.get r.Header k ∧
    (removeProxyRelatedHeaders r).Header =
      r.Header.filter (fun e => !(proxyRelatedHeaders.contains e.1)) ∧
    (removeProxyRelatedHeaders r).Method = r.Method ∧
    (removeProxyRelatedHeaders r).URL = r.URL ∧
    (removeProxyRelatedHeaders r).Body = r.Body ∧
    (removeProxyRelatedHeaders r).Host = r.Host := by
  refine ⟨?_, removeProxyRelatedHeaders_Header r, rfl, rfl, rfl, rfl⟩
  rw [removeProxyRelatedHeaders_Header]
  apply Header.get_filter_of_keep (fun k => !(proxyRelatedHeaders.contains k))
  simpa using hk


/-! ## `copyHeaders` -/

namespace Header

theorem get_Add (h : Header) (k v K : String) :
    get (Add h k v) K =
      if K = CanonicalMIMEHeaderKey k then get h K ++ [v] else get h K := by
  unfold Add
  simp only [get_put]
  split
  · next hK => rw [hK]
  · rfl

theorem get_foldl_Add (k : String) (vs : List String) (d : Header) (K : String) :
    get (vs.foldl (fun d1 v => Add d1 k v) d) K =
      if K = CanonicalMIMEHeaderKey k then get d K ++ vs else get d K := by
  induction vs generalizing d with
  | nil => simp
  | cons v vs ih =>
    simp only [List.foldl_cons, ih, get_Add]
    split
    · simp
    · rfl

/-- After `copyHeaders(dst, src)` the key `K` of `dst` holds what it held before,
followed by the value lists of the entries of `src` whose key canonicalises to
`K`, in iteration order. -/
theorem get_copyHeaders (dst src : Header) (K : String) :
    get (copyHeaders dst src) K =
      get dst K ++ (src.filter (fun e => CanonicalMIMEHeaderKey e.1 == K)).flatMap Prod.snd := by
  unfold copyHeaders
  induction src generalizing dst with
  | nil => simp
  | cons e t ih =>
    simp only [List.foldl_cons, ih, get_foldl_Add, List.filter_cons]
    by_cases hK : K = CanonicalMIMEHeaderKey e.1
    · subst hK; simp
    · have hK1 : ¬ CanonicalMIMEHeaderKey e.1 = K := fun h => hK h.symm
      simp [hK, hK1]

theorem sublist_flatMap_of_mem {α β : Type} (f : α → List β) (l : List α) (a : α)
    (ha : a ∈ l) : (f a).Sublist (l.flatMap f) := by
  induction l with
  | nil => cases ha
  | cons b t ih =>
    simp only [List.flatMap_cons]
    rcases List.mem_cons.mp ha with h | h
    · subst h; exact List.sublist_append_left _ _
    · exact (ih h).trans (List.sublist_append_right _ _)

theorem flatMap_filter_eq_get (src : Header) (K : String) (hwf : WF src)
    (hc : ∀ k ∈ keys src, CanonicalMIMEHeaderKey k = k) :
    (src.filter (fun e => CanonicalMIMEHeaderKey e.1 == K)).flatMap Prod.snd = get src K := by
  induction src with
  | nil => rfl
  | cons e t ih =>
    have hwf1 : WF t := (List.nodup_cons.mp hwf).2
    have hnot : e.1 ∉ keys t := (List.nodup_cons.mp hwf).1
    have hc1 : ∀ k ∈ keys t, CanonicalMIMEHeaderKey k = k :=
      fun k hk => hc k (List.mem_cons_of_mem _ hk)
    have he : CanonicalMIMEHeaderKey e.1 = e.1 := hc e.1 (List.mem_cons_self _ _)
    simp only [List.filter_cons, he, get]
    by_cases hK : e.1 = K
    · subst hK
      simp only [beq_self_eq_true, if_true, List.flatMap_cons, ih hwf1 hc1,
        get_of_not_mem_keys t e.1 hnot, List.append_nil]
    · simp [hK, ih hwf1 hc1]

end Header


/-! ## The response writer -/

namespace ResponseWriter

theorem WriteHeader_first (w : ResponseWriter) (code : Int) (hw : w.wroteHeader = false)
    (hlo : 100 ≤ code) (hhi : code ≤ 999) :
    WriteHeader w code =
      some { w with wroteHeader := true, status := code, sent := w.header } := by
  have hc : ¬ (code < 100 ∨ code > 999) := by omega
  simp [WriteHeader, hw, hc]

theorem WriteHeader_invalid (w : ResponseWriter) (code : Int) (hw : w.wroteHeader = false)
    (hc : code < 100 ∨ code > 999) :
    WriteHeader w code = none := by
  simp [WriteHeader, hw, hc]

theorem WriteHeader_again (w : ResponseWriter) (code : Int) (hw : w.wroteHeader = true) :
    WriteHeader w code = some w := by
  simp [WriteHeader, hw]

theorem Write_after_header (w : ResponseWriter) (p : List UInt8) (hw : w.wroteHeader = true) :
    Write w p = ({ w with body := w.body ++ p }, p.length, none) := by
  simp [Write, hw]

end ResponseWriter

theorem ioCopyLoop_after_header (w : ResponseWriter) (chunks : List (List UInt8))
    (er : Option GoError) (hw : w.wroteHeader = true) :
    ioCopyLoop w chunks er =
      ({ w with body := w.body ++ chunks.flatten }, chunks.flatten.length, er) := by
  induction chunks generalizing w with
  | nil => simp [ioCopyLoop]
  | cons c cs ih =>
    by_cases hc : c.length = 0
    · have hnil : c = [] := List.length_eq_zero.mp hc
      subst hnil
      simp [ioCopyLoop, ih w hw]
    · have hw1 : ({ w with body := w.body ++ c } : ResponseWriter).wroteHeader = true := hw
      simp [ioCopyLoop, hc, ResponseWriter.Write_after_header w c hw, ih _ hw1,
        List.append_assoc]

theorem ioCopyLoop_error (w : ResponseWriter) (chunks : List (List UInt8))
    (er : Option GoError) : (ioCopyLoop w chunks er).2.2 = er := by
  induction chunks generalizing w with
  | nil => simp [ioCopyLoop]
  | cons c cs ih =>
    by_cases hc : c.length = 0
    · simp [ioCopyLoop, hc, ih]
    · simp [ioCopyLoop, hc, ResponseWriter.Write, ih]

theorem httpError_first (w : ResponseWriter) (msg : String) (code : Int)
    (hw : w.wroteHeader = false) (hlo : 100 ≤ code) (hhi : code ≤ 999) :
    httpError w msg code =
      some
        { header := (w.header.Set "Content-Type" "text/plain; charset=utf-8").Set
            "X-Content-Type-Options" "nosniff"
          wroteHeader := true
          status := code
          sent := (w.header.Set "Content-Type" "text/plain; charset=utf-8").Set
            "X-Content-Type-Options" "nosniff"
          body := w.body ++ stringBytes (msg ++ "\n") } := by
  have hc : ¬ (code < 100 ∨ code > 999) := by omega
  simp [httpError, ResponseWriter.WriteHeader, ResponseWriter.Write, hw, hc]

/-- The call `http.Error(w, msg, 500)` returns, whatever the writer. -/
theorem httpError_500 (w : ResponseWriter) (msg : String) :
    httpError w msg 500 = some ((httpError w msg 500).getD w) := by
  cases hw : w.wroteHeader <;>
    simp [httpError, ResponseWriter.WriteHeader, ResponseWriter.Write, hw]

theorem wrapInt64_succ (x : Int) (hlo : minInt64 ≤ x) (hhi : x < maxInt64) :
    wrapInt64 (x + 1) = x + 1 := by
  unfold wrapInt64
  unfold minInt64 at hlo
  unfold maxInt64 at hhi
  norm_num at hlo hhi ⊢
  omega

theorem wrapInt64_max : wrapInt64 (maxInt64 + 1) = minInt64 := by
  unfold wrapInt64 maxInt64 minInt64
  norm_num


theorem stringBytes_append (a b : String) :
    stringBytes (a ++ b) = stringBytes a ++ stringBytes b := by
  simp [stringBytes, String.data_append, List.flatMap_append]

/-! ## `ServeHTTP`: the forwarding path -/

theorem ServeHTTP_error_branch (handleHttps : HandleHttps) (proxy : ProxyHttpServer)
    (w : ResponseWriter) (r : Request) (e : GoError) (hm : r.Method ≠ "CONNECT")
    (ha : r.URL.IsAbs = true) (he : (proxy.Tr (removeProxyRelatedHeaders r)).err = some e) :
    ServeHTTP handleHttps proxy w r =
      { proxy := { proxy with Sess := wrapInt64 (proxy.Sess + 1) }
        w := (httpError w ("Received error status: " ++ e) 500).getD w
        r := removeProxyRelatedHeaders r
        sess := wrapInt64 (proxy.Sess + 1)
        calls := [Call.roundTrip (removeProxyRelatedHeaders r)]
        panic := none } := by
  unfold ServeHTTP
  simp only [hm, ha, he, if_false, Bool.not_true]
  rw [httpError_500]
  simp

theorem ServeHTTP_nil_branch (handleHttps : HandleHttps) (proxy : ProxyHttpServer)
    (w : ResponseWriter) (r : Request) (hm : r.Method ≠ "CONNECT")
    (ha : r.URL.IsAbs = true) (he : (proxy.Tr (removeProxyRelatedHeaders r)).err = none)
    (hr : (proxy.Tr (removeProxyRelatedHeaders r)).resp = none) :
    ServeHTTP handleHttps proxy w r =
      { proxy := { proxy with Sess := wrapInt64 (proxy.Sess + 1) }
        w := w
        r := removeProxyRelatedHeaders r
        sess := wrapInt64 (proxy.Sess + 1)
        calls := [Call.roundTrip (removeProxyRelatedHeaders r)]
        panic := some nilDereference } := by
  unfold ServeHTTP
  simp [hm, ha, he, hr]

theorem ServeHTTP_success_branch (handleHttps : HandleHttps) (proxy : ProxyHttpServer)
    (w : ResponseWriter) (r : Request) (resp : Response) (w1 : ResponseWriter)
    (hm : r.Method ≠ "CONNECT")
    (ha : r.URL.IsAbs = true) (he : (proxy.Tr (removeProxyRelatedHeaders r)).err = none)
    (hr : (proxy.Tr (removeProxyRelatedHeaders r)).resp = some resp)
    (hs : ResponseWriter.WriteHeader { w with header := copyHeaders w.header resp.Header }
      resp.StatusCode = some w1) :
    ServeHTTP handleHttps proxy w r =
      { proxy := { proxy with Sess := wrapInt64 (proxy.Sess + 1) }
        w := (ioCopy w1 resp.Body).1
        r := removeProxyRelatedHeaders r
        sess := wrapInt64 (proxy.Sess + 1)
        calls := [Call.roundTrip (removeProxyRelatedHeaders r)]
        panic := none } := by
  unfold ServeHTTP
  simp [hm, ha, he, hr, hs]

theorem ServeHTTP_invalid_code_branch (handleHttps : HandleHttps) (proxy : ProxyHttpServer)
    (w : ResponseWriter) (r : Request) (resp : Response)
    (hm : r.Method ≠ "CONNECT")
    (ha : r.URL.IsAbs = true) (he : (proxy.Tr (removeProxyRelatedHeaders r)).err = none)
    (hr : (proxy.Tr (removeProxyRelatedHeaders r)).resp = some resp)
    (hs : ResponseWriter.WriteHeader { w with header := copyHeaders w.header resp.Header }
      resp.StatusCode = none) :
    ServeHTTP handleHttps proxy w r =
      { proxy := { proxy with Sess := wrapInt64 (proxy.Sess + 1) }
        w := { w with header := copyHeaders w.header resp.Header }
        r := removeProxyRelatedHeaders r
        sess := wrapInt64 (proxy.Sess + 1)
        calls := [Call.roundTrip (removeProxyRelatedHeaders r)]
        panic := some (invalidWriteHeaderCode resp.StatusCode) } := by
  unfold ServeHTTP
  simp [hm, ha, he, hr, hs]

theorem ServeHTTP_nonSupport_branch (handleHttps : HandleHttps) (proxy : ProxyHttpServer)
    (w : ResponseWriter) (r : Request) (hm : r.Method ≠ "CONNECT")
    (ha : r.URL.IsAbs = false) :
    ServeHTTP handleHttps proxy w r =
      { proxy := { proxy with Sess := wrapInt64 (proxy.Sess + 1) }
        w := proxy.NonSupportHandler w r
        r := r
        sess := wrapInt64 (proxy.Sess + 1)
        calls := [Call.nonSupport r]
        panic := none } := by
  unfold ServeHTTP
  simp [hm, ha]

theorem ServeHTTP_connect_branch (handleHttps : HandleHttps) (proxy : ProxyHttpServer)
    (w : ResponseWriter) (r : Request) (hm : r.Method = "CONNECT") :
    ServeHTTP handleHttps proxy w r =
      { proxy := (handleHttps { proxy with Sess := wrapInt64 (proxy.Sess + 1) } w r
            { Req := r, Sess := wrapInt64 (proxy.Sess + 1) }).proxy
        w := (handleHttps { proxy with Sess := wrapInt64 (proxy.Sess + 1) } w r
            { Req := r, Sess := wrapInt64 (proxy.Sess + 1) }).w
        r := (handleHttps { proxy with Sess := wrapInt64 (proxy.Sess + 1) } w r
            { Req := r, Sess := wrapInt64 (proxy.Sess + 1) }).r
        sess := wrapInt64 (proxy.Sess + 1)
        calls := Call.handleHttps { Req := r, Sess := wrapInt64 (proxy.Sess + 1) } ::
          (handleHttps { proxy with Sess := wrapInt64 (proxy.Sess + 1) } w r
            { Req := r, Sess := wrapInt64 (proxy.Sess + 1) }).calls
        panic := (handleHttps { proxy with Sess := wrapInt64 (proxy.Sess + 1) } w r
            { Req := r, Sess := wrapInt64 (proxy.Sess + 1) }).panic } := by
  unfold ServeHTTP
  simp [hm]

theorem ServeHTTP_forward_calls (handleHttps : HandleHttps) (proxy : ProxyHttpServer)
    (w : ResponseWriter) (r : Request) (hm : r.Method ≠ "CONNECT")
    (ha : r.URL.IsAbs = true) :
    (ServeHTTP handleHttps proxy w r).calls = [Call.roundTrip (removeProxyRelatedHeaders r)] ∧
    (ServeHTTP handleHttps proxy w r).r = removeProxyRelatedHeaders r := by
  cases he : (proxy.Tr (removeProxyRelatedHeaders r)).err with
  | some e => rw [ServeHTTP_error_branch handleHttps proxy w r e hm ha he]; exact ⟨rfl, rfl⟩
  | none =>
    cases hr : (proxy.Tr (removeProxyRelatedHeaders r)).resp with
    | none => rw [ServeHTTP_nil_branch handleHttps proxy w r hm ha he hr]; exact ⟨rfl, rfl⟩
    | some resp =>
      cases hs : ResponseWriter.WriteHeader
          { w with header := copyHeaders w.header resp.Header } resp.StatusCode with
      | none =>
        rw [ServeHTTP_invalid_code_branch handleHttps proxy w r resp hm ha he hr hs]
        exact ⟨rfl, rfl⟩
      | some w1 =>
        rw [ServeHTTP_success_branch handleHttps proxy w r resp w1 hm ha he hr hs]
        exact ⟨rfl, rfl⟩

/-- C1. For a request whose method is not CONNECT and whose URI is absolute,
`ServeHTTP` makes exactly one round trip, on the request
`removeProxyRelatedHeaders` leaves, and a request handed to `RoundTrip` has
no value under any of the five names `Accept-Encoding`, `Proxy-Connection`,
`Proxy-Authenticate`, `Proxy-Authorization` and `Connection` (neither through
`Header.Values` nor as a key of the map), whatever the inbound request carried
under them. When the keys of the inbound request are canonical, as the server
parses them, no key of the outbound request is one of the five names in any
spelling. -/
theorem ServeHTTP_outbound_sanitized (handleHttps : HandleHttps) (proxy : ProxyHttpServer)
    (w : ResponseWriter) (r : Request) (hm : r.Method ≠ "CONNECT")
    (ha : r.URL.IsAbs = true) :
    (ServeHTTP handleHttps proxy w r).calls = [Call.roundTrip (removeProxyRelatedHeaders r)] ∧
    ∀ out, Call.roundTrip out ∈ (ServeHTTP handleHttps proxy w r).calls →
      (∀ n ∈ proxyRelatedHeaders,
        Header.Values out.Header n = [] ∧ Header.get out.Header n = [] ∧
        n ∉ Header.keys out.Header) ∧
      ((∀ k ∈ Header.keys r.Header, CanonicalMIMEHeaderKey k = k) →
        ∀ k ∈ Header.keys out.Header, CanonicalMIMEHeaderKey k ∉ proxyRelatedHeaders) := by
  have hc := (ServeHTTP_forward_calls handleHttps proxy w r hm ha).1
  refine ⟨hc, ?_⟩
  intro out hout
  rw [hc] at hout
  simp only [List.mem_singleton, Call.roundTrip.injEq] at hout
  subst hout
  refine ⟨?_, ?_⟩
  · intro n hn
    have hk := removeProxyRelatedHeaders_sanitized r n hn
    have hg := Header.get_of_not_mem_keys _ n hk
    refine ⟨?_, hg, hk⟩
    unfold Header.Values
    rw [canonical_of_mem hn]
    exact hg
  · intro hcanon k hk hmem
    have hkr : k ∈ Header.keys r.Header := by
      rw [removeProxyRelatedHeaders_Header] at hk
      simp only [Header.keys, List.mem_map, List.mem_filter] at hk ⊢
      obtain ⟨e, ⟨he, _⟩, rfl⟩ := hk
      exact ⟨e, he, rfl⟩
    rw [hcanon k hkr] at hmem
    exact removeProxyRelatedHeaders_sanitized r k hmem hk

/-! ## `ServeHTTP`: the session counter -/

theorem ServeHTTP_sess (handleHttps : HandleHttps) (proxy : ProxyHttpServer)
    (w : ResponseWriter) (r : Request) :
    (ServeHTTP handleHttps proxy w r).sess = wrapInt64 (proxy.Sess + 1) := by
  by_cases hm : r.Method = "CONNECT"
  · rw [ServeHTTP_connect_branch handleHttps proxy w r hm]
  · cases ha : r.URL.IsAbs with
    | false => rw [ServeHTTP_nonSupport_branch handleHttps proxy w r hm ha]
    | true =>
      cases he : (proxy.Tr (removeProxyRelatedHeaders r)).err with
      | some e => rw [ServeHTTP_error_branch handleHttps proxy w r e hm ha he]
      | none =>
        cases hr : (proxy.Tr (removeProxyRelatedHeaders r)).resp with
        | none => rw [ServeHTTP_nil_branch handleHttps proxy w r hm ha he hr]
        | some resp =>
          cases hs : ResponseWriter.WriteHeader
              { w with header := copyHeaders w.header resp.Header } resp.StatusCode with
          | none => rw [ServeHTTP_invalid_code_branch handleHttps proxy w r resp hm ha he hr hs]
          | some w1 => rw [ServeHTTP_success_branch handleHttps proxy w r resp w1 hm ha he hr hs]

theorem ServeHTTP_proxy (handleHttps : HandleHttps) (proxy : ProxyHttpServer)
    (w : ResponseWriter) (r : Request)
    (hframe : ∀ p w1 r1 c, (handleHttps p w1 r1 c).proxy = p) :
    (ServeHTTP handleHttps proxy w r).proxy =
      { proxy with Sess := wrapInt64 (proxy.Sess + 1) } := by
  by_cases hm : r.Method = "CONNECT"
  · rw [ServeHTTP_connect_branch handleHttps proxy w r hm]
    exact hframe _ _ _ _
  · cases ha : r.URL.IsAbs with
    | false => rw [ServeHTTP_nonSupport_branch handleHttps proxy w r hm ha]
    | true =>
      cases he : (proxy.Tr (removeProxyRelatedHeaders r)).err with
      | some e => rw [ServeHTTP_error_branch handleHttps proxy w r e hm ha he]
      | none =>
        cases hr : (proxy.Tr (removeProxyRelatedHeaders r)).resp with
        | none => rw [ServeHTTP_nil_branch handleHttps proxy w r hm ha he hr]
        | some resp =>
          cases hs : ResponseWriter.WriteHeader
              { w with header := copyHeaders w.header resp.Header } resp.StatusCode with
          | none => rw [ServeHTTP_invalid_code_branch handleHttps proxy w r resp hm ha he hr hs]
          | some w1 => rw [ServeHTTP_success_branch handleHttps proxy w r resp w1 hm ha he hr hs]

theorem serveAll_sess (handleHttps : HandleHttps)
    (hframe : ∀ p w1 r1 c, (handleHttps p w1 r1 c).proxy = p)
    (qs : List (ResponseWriter × Request)) (proxy : ProxyHttpServer)
    (hlo : minInt64 ≤ proxy.Sess) (hhi : proxy.Sess + qs.length ≤ maxInt64) :
    (serveAll handleHttps proxy qs).map (fun o => (o.sess, o.proxy)) =
      (List.range qs.length).map (fun (i : Nat) =>
        (proxy.Sess + 1 + (i : Int), { proxy with Sess := proxy.Sess + 1 + (i : Int) })) ∧
    serverAfter handleHttps proxy qs = { proxy with Sess := proxy.Sess + qs.length } := by
  induction qs generalizing proxy with
  | nil => simp [serveAll, serverAfter]
  | cons q qs ih =>
    simp only [List.length_cons, Nat.cast_succ] at hhi
    have hw : wrapInt64 (proxy.Sess + 1) = proxy.Sess + 1 :=
      wrapInt64_succ proxy.Sess hlo (by omega)
    have hp := ServeHTTP_proxy handleHttps proxy q.1 q.2 hframe
    have hs := ServeHTTP_sess handleHttps proxy q.1 q.2
    rw [hw] at hp hs
    have ih1 := ih { proxy with Sess := proxy.Sess + 1 } (by show minInt64 ≤ proxy.Sess + 1; omega)
      (by show proxy.Sess + 1 + (qs.length : Int) ≤ maxInt64; omega)
    simp only [serveAll, serverAfter, List.map_cons, hp, hs, List.length_cons,
      List.range_succ_eq_map, List.map_map, ih1.1, ih1.2]
    refine ⟨?_, ?_⟩
    · simp only [Nat.cast_zero, add_zero, List.cons.injEq, true_and]
      apply List.map_congr_left
      intro i _
      have hi : proxy.Sess + 1 + 1 + (i : Int) = proxy.Sess + 1 + ((i.succ : Nat) : Int) := by
        push_cast; ring
      simp only [Function.comp, hi]
    · have hn : proxy.Sess + 1 + (qs.length : Int) = proxy.Sess + ((qs.length + 1 : Nat) : Int) := by
        push_cast; ring
      rw [hn]


/-! ## The claims about `copyHeaders` and the relayed response -/

/-- C2. After `copyHeaders(dst, src)`, for every entry `k, vs` of `src` the values
`vs` appear under the name `k` of `dst` (`dst.Values(k)`) as a sublist: every
value is there, at least as often as in `vs`, in the order of `vs`. Exactly, every
key of `dst` holds what it held before followed by the value lists `src` has for
that name, and for a well-formed `src` with canonical keys that is
`dst[K] ++ src[K]`. In `ServeHTTP` the copy comes before the status line: on a
successful round trip the header map of the writer is
`copyHeaders(w.Header(), resp.Header)` in every case; when `resp.StatusCode` is
in `100..999` the status line goes out and the header set sent with it is that
map; otherwise `WriteHeader` panics after the copy and no status line goes
out. -/
theorem copyHeaders_preserves (dst src : Header) :
    (∀ k vs, (k, vs) ∈ src →
      vs.Sublist (Header.Values (copyHeaders dst src) k) ∧
      (∀ v ∈ vs, v ∈ Header.Values (copyHeaders dst src) k) ∧
      (∀ v, vs.count v ≤ (Header.Values (copyHeaders dst src) k).count v)) ∧
    (∀ K, Header.get (copyHeaders dst src) K =
      Header.get dst K ++
        (src.filter (fun e => CanonicalMIMEHeaderKey e.1 == K)).flatMap Prod.snd) ∧
    (Header.WF src → (∀ k ∈ Header.keys src, CanonicalMIMEHeaderKey k = k) →
      ∀ K, Header.get (copyHeaders dst src) K = Header.get dst K ++ Header.get src K) ∧
    (∀ (handleHttps : HandleHttps) (proxy : ProxyHttpServer) (w : ResponseWriter)
      (r : Request) (resp : Response),
      r.Method ≠ "CONNECT" → r.URL.IsAbs = true →
      (proxy.Tr (removeProxyRelatedHeaders r)).err = none →
      (proxy.Tr (removeProxyRelatedHeaders r)).resp = some resp →
      w.wroteHeader = false →
      (ServeHTTP handleHttps proxy w r).w.header = copyHeaders w.header resp.Header ∧
      (100 ≤ resp.StatusCode → resp.StatusCode ≤ 999 →
        (ServeHTTP handleHttps proxy w r).w.wroteHeader = true ∧
        (ServeHTTP handleHttps proxy w r).w.sent = copyHeaders w.header resp.Header ∧
        (ServeHTTP handleHttps proxy w r).panic = none) ∧
      (resp.StatusCode < 100 ∨ resp.StatusCode > 999 →
        (ServeHTTP handleHttps proxy w r).w.wroteHeader = false ∧
        (ServeHTTP handleHttps proxy w r).panic =
          some (invalidWriteHeaderCode resp.StatusCode))) := by
  refine ⟨?_, Header.get_copyHeaders dst src, ?_, ?_⟩
  · intro k vs hmem
    have hsub : vs.Sublist (Header.Values (copyHeaders dst src) k) := by
      unfold Header.Values
      rw [Header.get_copyHeaders]
      have hin : (k, vs) ∈
          src.filter (fun e => CanonicalMIMEHeaderKey e.1 == CanonicalMIMEHeaderKey k) := by
        simp [List.mem_filter, hmem]
      exact (Header.sublist_flatMap_of_mem Prod.snd _ (k, vs) hin).trans
        (List.sublist_append_right _ _)
    exact ⟨hsub, fun v hv => hsub.subset hv, fun v => hsub.count_le v⟩
  · intro hwf hc K
    rw [Header.get_copyHeaders, Header.flatMap_filter_eq_get src K hwf hc]
  · intro handleHttps proxy w r resp hm ha he hr hw
    have hw1 : ({ w with header := copyHeaders w.header resp.Header } :
        ResponseWriter).wroteHeader = false := hw
    by_cases hc : resp.StatusCode < 100 ∨ resp.StatusCode > 999
    · have hs := ResponseWriter.WriteHeader_invalid _ resp.StatusCode hw1 hc
      rw [ServeHTTP_invalid_code_branch handleHttps proxy w r resp hm ha he hr hs]
      refine ⟨rfl, ?_, ?_⟩
      · intro hlo hhi
        omega
      · intro _
        exact ⟨hw, rfl⟩
    · have hlo : 100 ≤ resp.StatusCode := by omega
      have hhi : resp.StatusCode ≤ 999 := by omega
      have hs := ResponseWriter.WriteHeader_first _ resp.StatusCode hw1 hlo hhi
      rw [ServeHTTP_success_branch handleHttps proxy w r resp _ hm ha he hr hs]
      simp only [ioCopy]
      rw [ioCopyLoop_after_header _ _ _ rfl]
      refine ⟨rfl, ?_, ?_⟩
      · intro _ _
        exact ⟨rfl, rfl, trivial⟩
      · intro hbad
        exact absurd hbad hc

/-- C2, at a concrete input: `Set-Cookie: a=1, b=2, a=1` copied over a writer
that already holds one cookie, and the header set sent with status 404. -/
theorem copyHeaders_preserves_witness :
    Header.get (copyHeaders [("Set-Cookie", ["z=0"])] sampleResponse.Header) "Set-Cookie" =
      ["z=0", "a=1", "b=2", "a=1"] ∧
    (ServeHTTP tunnelAck (NewProxyHttpServer trOk) ResponseWriter.fresh sampleGet).w.sent =
      copyHeaders [] sampleResponse.Header := by
  have h := copyHeaders_preserves [("Set-Cookie", ["z=0"])] sampleResponse.Header
  refine ⟨?_, ?_⟩
  · rw [h.2.2.1 (by unfold Header.WF; decide) (by decide) "Set-Cookie"]
    decide
  · exact ((h.2.2.2 tunnelAck (NewProxyHttpServer trOk) ResponseWriter.fresh sampleGet
      sampleResponse (by decide) (by decide) rfl rfl rfl).2.1 (by decide) (by decide)).2.1

/-- C8, as amended. When the round trip of a forwarded request succeeds with
`resp`, the status code of `resp` is in `100..999` and the body copy does not
fail, the status code written to the caller is `resp.StatusCode` and the bytes
written as the body are exactly the bytes of the body of `resp`, in order: the
chunks read, one after the other. -/
theorem ServeHTTP_relays_response (handleHttps : HandleHttps) (proxy : ProxyHttpServer)
    (w : ResponseWriter) (r : Request) (resp : Response)
    (hm : r.Method ≠ "CONNECT") (ha : r.URL.IsAbs = true)
    (he : (proxy.Tr (removeProxyRelatedHeaders r)).err = none)
    (hr : (proxy.Tr (removeProxyRelatedHeaders r)).resp = some resp)
    (hw : w.wroteHeader = false)
    (hlo : 100 ≤ resp.StatusCode) (hhi : resp.StatusCode ≤ 999)
    (hcopy : ∀ w1, ResponseWriter.WriteHeader
      { w with header := copyHeaders w.header resp.Header } resp.StatusCode = some w1 →
      (ioCopy w1 resp.Body).2.2 = none) :
    (ServeHTTP handleHttps proxy w r).w.wroteHeader = true ∧
    (ServeHTTP handleHttps proxy w r).w.status = resp.StatusCode ∧
    (ServeHTTP handleHttps proxy w r).w.body = w.body ++ resp.Body.chunks.flatten ∧
    (∀ w1, ResponseWriter.WriteHeader
      { w with header := copyHeaders w.header resp.Header } resp.StatusCode = some w1 →
      (ioCopy w1 resp.Body).2.1 = resp.Body.chunks.flatten.length) ∧
    resp.Body.err = none ∧
    (ServeHTTP handleHttps proxy w r).panic = none := by
  have hw1 : ({ w with header := copyHeaders w.header resp.Header } :
      ResponseWriter).wroteHeader = false := hw
  have hs := ResponseWriter.WriteHeader_first _ resp.StatusCode hw1 hlo hhi
  have herr : resp.Body.err = none := by
    have h := hcopy _ hs
    simpa only [ioCopy, ioCopyLoop_error] using h
  rw [ServeHTTP_success_branch handleHttps proxy w r resp _ hm ha he hr hs]
  simp only [ioCopy]
  rw [ioCopyLoop_after_header _ _ _ rfl]
  refine ⟨rfl, rfl, rfl, ?_, herr, trivial⟩
  intro w1 h1
  rw [hs] at h1
  cases h1
  simp only [ioCopy]
  rw [ioCopyLoop_after_header _ _ _ rfl]

/-- C8 as amended, at a concrete input: status 404 and the body `hi!` read in
chunks. -/
theorem ServeHTTP_relays_response_witness :
    (ServeHTTP tunnelAck (NewProxyHttpServer trOk) ResponseWriter.fresh sampleGet).w.status = 404 ∧
    (ServeHTTP tunnelAck (NewProxyHttpServer trOk) ResponseWriter.fresh sampleGet).w.body =
      [104, 105, 33] := by
  have h := ServeHTTP_relays_response tunnelAck (NewProxyHttpServer trOk) ResponseWriter.fresh
    sampleGet sampleResponse (by decide) (by decide) rfl rfl rfl (by decide) (by decide)
    (fun w1 _ => ioCopyLoop_error w1 _ _)
  exact ⟨h.2.1, h.2.2.1⟩

/-- C8 as stated fails for a status code outside `100..999`: the origin answers
`HTTP/1.1 000` with a three-byte body that is read without error, the round trip
succeeds, and `w.WriteHeader(0)` panics: no status line goes out and no byte of
the body is written, though copying that body to any writer would not fail. -/
theorem ServeHTTP_invalid_status_panics :
    sampleGet.Method ≠ "CONNECT" ∧ sampleGet.URL.IsAbs = true ∧
    trInvalidStatus (removeProxyRelatedHeaders sampleGet) =
      { resp := some sampleInvalidStatus, err := none } ∧
    sampleInvalidStatus.Body.err = none ∧
    (∀ w1, (ioCopy w1 sampleInvalidStatus.Body).2.2 = none) ∧
    (ServeHTTP tunnelAck (NewProxyHttpServer trInvalidStatus) ResponseWriter.fresh
      sampleGet).panic = some (invalidWriteHeaderCode 0) ∧
    (ServeHTTP tunnelAck (NewProxyHttpServer trInvalidStatus) ResponseWriter.fresh
      sampleGet).w.wroteHeader = false ∧
    (ServeHTTP tunnelAck (NewProxyHttpServer trInvalidStatus) ResponseWriter.fresh
      sampleGet).w.body = [] ∧
    (ServeHTTP tunnelAck (NewProxyHttpServer trInvalidStatus) ResponseWriter.fresh
      sampleGet).w.body ≠ sampleInvalidStatus.Body.chunks.flatten := by
  have hs : ResponseWriter.WriteHeader
      { ResponseWriter.fresh with
        header := copyHeaders ResponseWriter.fresh.header sampleInvalidStatus.Header }
      sampleInvalidStatus.StatusCode = none := by decide
  have hserve := ServeHTTP_invalid_code_branch tunnelAck (NewProxyHttpServer trInvalidStatus)
    ResponseWriter.fresh sampleGet sampleInvalidStatus (by decide) (by decide) rfl rfl hs
  refine ⟨by decide, by decide, rfl, rfl, fun w1 => ioCopyLoop_error w1 _ _, ?_, ?_, ?_, ?_⟩ <;>
    rw [hserve]
  · rfl
  · rfl
  · rfl
  · decide

/-! ## The claims about dispatch and failures -/

/-- C1, at a concrete input: `GET http://example.com/path` with
`Proxy-Connection: keep-alive`. -/
theorem ServeHTTP_outbound_sanitized_witness :
    (ServeHTTP tunnelAck (NewProxyHttpServer trOk) ResponseWriter.fresh sampleGet).calls =
      [Call.roundTrip { sampleGet with Header := [("User-Agent", ["curl/8.0"])] }] ∧
    Header.Values (removeProxyRelatedHeaders sampleGet).Header "Proxy-Connection" = [] := by
  have h := ServeHTTP_outbound_sanitized tunnelAck (NewProxyHttpServer trOk)
    ResponseWriter.fresh sampleGet (by decide) (by decide)
  refine ⟨h.1.trans (by decide), ?_⟩
  exact ((h.2 (removeProxyRelatedHeaders sampleGet)
    (by rw [h.1]; exact List.mem_singleton_self _)).1 "Proxy-Connection" (by decide)).1

/-- C10, at a concrete input: the `User-Agent` of `sampleGet` stays. -/
theorem removeProxyRelatedHeaders_frame_witness :
    "User-Agent" ∉ proxyRelatedHeaders ∧
    Header.get (removeProxyRelatedHeaders sampleGet).Header "User-Agent" = ["curl/8.0"] := by
  have h := removeProxyRelatedHeaders_frame sampleGet "User-Agent" (by decide)
  exact ⟨by decide, h.1.trans (by decide)⟩

/-- C3. On a server whose non-support handler is the one `NewProxyHttpServer`
installs, a request whose method is not CONNECT and whose URI is not absolute is
answered with status 500 and the fixed body `nonSupportMessage` followed by a
newline, the same for every such request and every session identifier; the
request is left as it came (no header is removed) and no round trip is made. -/
theorem ServeHTTP_nonSupport_fixed (handleHttps : HandleHttps) (proxy : ProxyHttpServer)
    (w : ResponseWriter) (r : Request)
    (hn : proxy.NonSupportHandler = (NewProxyHttpServer proxy.Tr).NonSupportHandler)
    (hm : r.Method ≠ "CONNECT") (ha : r.URL.IsAbs = false) (hw : w.wroteHeader = false) :
    (ServeHTTP handleHttps proxy w r).w.status = 500 ∧
    (ServeHTTP handleHttps proxy w r).w.body = w.body ++ stringBytes (nonSupportMessage ++ "\n") ∧
    httpError w nonSupportMessage 500 = some (ServeHTTP handleHttps proxy w r).w ∧
    (ServeHTTP handleHttps proxy w r).r = r ∧
    (ServeHTTP handleHttps proxy w r).calls = [Call.nonSupport r] ∧
    (∀ q, Call.roundTrip q ∉ (ServeHTTP handleHttps proxy w r).calls) ∧
    (ServeHTTP handleHttps proxy w r).panic = none := by
  rw [ServeHTTP_nonSupport_branch handleHttps proxy w r hm ha]
  have hh : proxy.NonSupportHandler w r = (httpError w nonSupportMessage 500).getD w := by
    rw [hn]; rfl
  have hfirst := httpError_first w nonSupportMessage 500 hw (by decide) (by decide)
  simp only [hh, hfirst, Option.getD_some]
  refine ⟨trivial, trivial, trivial, trivial, trivial, ?_, trivial⟩
  intro q hq
  simp at hq

/-- C3, at a concrete input: `GET /index.html` on a new server. -/
theorem ServeHTTP_nonSupport_fixed_witness :
    (ServeHTTP tunnelAck (NewProxyHttpServer trOk) ResponseWriter.fresh sampleRelative).w.status
      = 500 ∧
    (ServeHTTP tunnelAck (NewProxyHttpServer trOk) ResponseWriter.fresh sampleRelative).r =
      sampleRelative := by
  have h := ServeHTTP_nonSupport_fixed tunnelAck (NewProxyHttpServer trOk) ResponseWriter.fresh
    sampleRelative rfl (by decide) (by decide) rfl
  exact ⟨h.1, h.2.2.2.1⟩

/-- C4, as amended. A request whose method is not CONNECT and whose URI is not
absolute gets the response of the configured `NonSupportHandler`, which is called
once on the writer and the request as they came; the request is not sanitized and
no round trip is made. -/
theorem ServeHTTP_nonSupport_dispatch (handleHttps : HandleHttps) (proxy : ProxyHttpServer)
    (w : ResponseWriter) (r : Request)
    (hm : r.Method ≠ "CONNECT") (ha : r.URL.IsAbs = false) :
    (ServeHTTP handleHttps proxy w r).w = proxy.NonSupportHandler w r ∧
    (ServeHTTP handleHttps proxy w r).calls = [Call.nonSupport r] ∧
    (ServeHTTP handleHttps proxy w r).r = r ∧
    (∀ q, Call.roundTrip q ∉ (ServeHTTP handleHttps proxy w r).calls) ∧
    (ServeHTTP handleHttps proxy w r).panic = none := by
  rw [ServeHTTP_nonSupport_branch handleHttps proxy w r hm ha]
  refine ⟨rfl, rfl, rfl, ?_, rfl⟩
  intro q hq
  simp at hq

/-- C4 as amended, at a concrete input: `GET /index.html`. -/
theorem ServeHTTP_nonSupport_dispatch_witness :
    sampleRelative.Method ≠ "CONNECT" ∧ sampleRelative.URL.IsAbs = false ∧
    (ServeHTTP tunnelAck (NewProxyHttpServer trOk) ResponseWriter.fresh sampleRelative).calls =
      [Call.nonSupport sampleRelative] := by
  have h := ServeHTTP_nonSupport_dispatch tunnelAck (NewProxyHttpServer trOk)
    ResponseWriter.fresh sampleRelative (by decide) (by decide)
  exact ⟨by decide, by decide, h.2.1⟩

/-- C4 as stated fails for CONNECT: `CONNECT example.com:443` has a URI that is
not absolute, and `ServeHTTP` hands it to `handleHttps`, whatever that method is;
the non-support handler is not called by `ServeHTTP` and, with a tunnel handler
that acknowledges the tunnel, the response is not the non-support response. -/
theorem ServeHTTP_connect_not_nonSupport :
    sampleConnect.URL.IsAbs = false ∧
    (∀ (handleHttps : HandleHttps) (proxy : ProxyHttpServer) (w : ResponseWriter),
      (ServeHTTP handleHttps proxy w sampleConnect).w =
        (handleHttps { proxy with Sess := wrapInt64 (proxy.Sess + 1) } w sampleConnect
          { Req := sampleConnect, Sess := wrapInt64 (proxy.Sess + 1) }).w ∧
      (ServeHTTP handleHttps proxy w sampleConnect).calls.head? =
        some (Call.handleHttps { Req := sampleConnect, Sess := wrapInt64 (proxy.Sess + 1) })) ∧
    (ServeHTTP tunnelAck (NewProxyHttpServer trOk) ResponseWriter.fresh sampleConnect).calls =
      [Call.handleHttps { Req := sampleConnect, Sess := 1 }] ∧
    Call.nonSupport sampleConnect ∉
      (ServeHTTP tunnelAck (NewProxyHttpServer trOk) ResponseWriter.fresh sampleConnect).calls ∧
    (ServeHTTP tunnelAck (NewProxyHttpServer trOk) ResponseWriter.fresh sampleConnect).w.status
      = 200 ∧
    ((NewProxyHttpServer trOk).NonSupportHandler ResponseWriter.fresh sampleConnect).status
      = 500 := by
  refine ⟨by decide, ?_, by decide, by decide, by decide, by decide⟩
  intro handleHttps proxy w
  rw [ServeHTTP_connect_branch handleHttps proxy w sampleConnect rfl]
  exact ⟨rfl, rfl⟩


/-- C5. When the round trip of a forwarded request returns a non-nil error `e`,
`ServeHTTP` answers with `http.Error(w, "Received error status: " + e, 500)`:
status 500 and a body made of the bytes of `Received error status: `, of `e`
and of a newline. What is written depends on `w` and `e` only: with any other
upstream response beside the same error the caller gets the same, so no header,
status or body of the upstream response reaches the caller. The call returns
after that single round trip. -/
theorem ServeHTTP_roundTrip_error (handleHttps : HandleHttps) (proxy : ProxyHttpServer)
    (w : ResponseWriter) (r : Request) (e : GoError)
    (hm : r.Method ≠ "CONNECT") (ha : r.URL.IsAbs = true)
    (he : (proxy.Tr (removeProxyRelatedHeaders r)).err = some e)
    (hw : w.wroteHeader = false) :
    httpError w ("Received error status: " ++ e) 500 = some (ServeHTTP handleHttps proxy w r).w ∧
    (ServeHTTP handleHttps proxy w r).w.status = 500 ∧
    (ServeHTTP handleHttps proxy w r).w.body =
      w.body ++ (stringBytes "Received error status: " ++ stringBytes e ++ stringBytes "\n") ∧
    (∀ other : ProxyHttpServer, (other.Tr (removeProxyRelatedHeaders r)).err = some e →
      (ServeHTTP handleHttps other w r).w = (ServeHTTP handleHttps proxy w r).w) ∧
    (ServeHTTP handleHttps proxy w r).calls =
      [Call.roundTrip (removeProxyRelatedHeaders r)] ∧
    (ServeHTTP handleHttps proxy w r).panic = none := by
  have hother : ∀ other : ProxyHttpServer,
      (other.Tr (removeProxyRelatedHeaders r)).err = some e →
      (ServeHTTP handleHttps other w r).w = (ServeHTTP handleHttps proxy w r).w := by
    intro other ho
    rw [ServeHTTP_error_branch handleHttps other w r e hm ha ho,
      ServeHTTP_error_branch handleHttps proxy w r e hm ha he]
  have hfirst := httpError_first w ("Received error status: " ++ e) 500 hw (by decide)
    (by decide)
  refine ⟨?_, ?_, ?_, hother, ?_, ?_⟩ <;>
    rw [ServeHTTP_error_branch handleHttps proxy w r e hm ha he]
  · exact httpError_500 w _
  · simp only [hfirst, Option.getD_some]
  · simp only [hfirst, Option.getD_some, stringBytes_append]

/-- C5, at a concrete input: the origin refuses the connection. -/
theorem ServeHTTP_roundTrip_error_witness :
    (ServeHTTP tunnelAck (NewProxyHttpServer trErr) ResponseWriter.fresh sampleGet).w.status = 500 ∧
    (ServeHTTP tunnelAck (NewProxyHttpServer trErr) ResponseWriter.fresh sampleGet).w.body =
      stringBytes "Received error status: dial tcp: connection refused\n" := by
  have h := ServeHTTP_roundTrip_error tunnelAck (NewProxyHttpServer trErr) ResponseWriter.fresh
    sampleGet "dial tcp: connection refused" (by decide) (by decide) rfl rfl
  exact ⟨h.2.1, h.2.2.1.trans (by decide)⟩

/-- C6, the failing input. When the round trip returns a nil response and a nil
error, the error branch calls `err.Error()` on the nil error: the call panics,
nothing is written to the caller, and in particular no status 500. -/
theorem ServeHTTP_nil_response_nil_error :
    sampleGet.Method ≠ "CONNECT" ∧ sampleGet.URL.IsAbs = true ∧
    trNil (removeProxyRelatedHeaders sampleGet) = { resp := none, err := none } ∧
    (ServeHTTP tunnelAck (NewProxyHttpServer trNil) ResponseWriter.fresh sampleGet).panic =
      some nilDereference ∧
    (ServeHTTP tunnelAck (NewProxyHttpServer trNil) ResponseWriter.fresh sampleGet).w =
      ResponseWriter.fresh ∧
    (ServeHTTP tunnelAck (NewProxyHttpServer trNil) ResponseWriter.fresh sampleGet).w.wroteHeader =
      false ∧
    (ServeHTTP tunnelAck (NewProxyHttpServer trNil) ResponseWriter.fresh sampleGet).w.status ≠
      500 := by
  refine ⟨by decide, by decide, rfl, ?_, ?_, ?_, ?_⟩ <;>
    rw [ServeHTTP_nil_branch tunnelAck (NewProxyHttpServer trNil) ResponseWriter.fresh sampleGet
      (by decide) (by decide) rfl rfl] <;> decide

/-! ## The claim about session identifiers -/

/-- C7, as amended. Let `handleHttps` leave the server's fields as it finds them
and let the counter, an `int64` (so at least `minInt64`), not pass the largest
`int64` during the sequence. Then every
call of `ServeHTTP` in a sequence of requests of any kind adds one to the counter
and gives the new value to the request: the identifiers are `Sess + 1`,
`Sess + 2`, ..., strictly increasing and pairwise distinct, the server after the
`i`-th call differs from the initial one in `Sess` only. Without any assumption,
the identifier a call assigns is `wrapInt64 (Sess + 1)`. -/
theorem serveAll_session_identifiers (handleHttps : HandleHttps) (proxy : ProxyHttpServer)
    (qs : List (ResponseWriter × Request))
    (hframe : ∀ p w r c, (handleHttps p w r c).proxy = p)
    (hlo : minInt64 ≤ proxy.Sess) (hhi : proxy.Sess + qs.length ≤ maxInt64) :
    (serveAll handleHttps proxy qs).map (fun o => (o.sess, o.proxy)) =
      (List.range qs.length).map (fun (i : Nat) =>
        (proxy.Sess + 1 + (i : Int), { proxy with Sess := proxy.Sess + 1 + (i : Int) })) ∧
    ((serveAll handleHttps proxy qs).map Outcome.sess).Pairwise (fun a b => a < b) ∧
    ((serveAll handleHttps proxy qs).map Outcome.sess).Nodup ∧
    serverAfter handleHttps proxy qs = { proxy with Sess := proxy.Sess + qs.length } ∧
    (∀ (hh : HandleHttps) (p : ProxyHttpServer) (w : ResponseWriter) (r : Request),
      (ServeHTTP hh p w r).sess = wrapInt64 (p.Sess + 1)) := by
  have h := serveAll_sess handleHttps hframe qs proxy hlo hhi
  have hids : (serveAll handleHttps proxy qs).map Outcome.sess =
      (List.range qs.length).map (fun (i : Nat) => proxy.Sess + 1 + (i : Int)) := by
    have := congrArg (List.map Prod.fst) h.1
    simpa [List.map_map, Function.comp] using this
  have hpw : ((serveAll handleHttps proxy qs).map Outcome.sess).Pairwise (fun a b => a < b) := by
    rw [hids, List.pairwise_map]
    refine (List.pairwise_lt_range qs.length).imp ?_
    intro a b hab
    have : (a : Int) < (b : Int) := by exact_mod_cast hab
    omega
  refine ⟨h.1, hpw, ?_, h.2, ?_⟩
  · exact hpw.imp (fun hab => ne_of_lt hab)
  · intro hh p w r
    exact ServeHTTP_sess hh p w r

/-- C7 as amended, at a concrete input: three requests of the three kinds on a
new server get the identifiers 1, 2 and 3. -/
theorem serveAll_session_identifiers_witness :
    (serveAll tunnelAck (NewProxyHttpServer trOk)
      [(ResponseWriter.fresh, sampleConnect), (ResponseWriter.fresh, sampleRelative),
        (ResponseWriter.fresh, sampleGet)]).map Outcome.sess = [1, 2, 3] ∧
    (serverAfter tunnelAck (NewProxyHttpServer trOk)
      [(ResponseWriter.fresh, sampleConnect), (ResponseWriter.fresh, sampleRelative),
        (ResponseWriter.fresh, sampleGet)]).Sess = 3 := by
  have h := serveAll_session_identifiers tunnelAck (NewProxyHttpServer trOk)
    [(ResponseWriter.fresh, sampleConnect), (ResponseWriter.fresh, sampleRelative),
      (ResponseWriter.fresh, sampleGet)] (fun _ _ _ _ => rfl) (by decide) (by decide)
  refine ⟨?_, ?_⟩
  · have := congrArg (List.map Prod.fst) h.1
    simpa [List.map_map, Function.comp, NewProxyHttpServer, List.range_succ] using this
  · rw [h.2.2.2.1]
    rfl

/-- C7 as stated fails when the counter wraps: on a server whose counter is one
below the largest `int64`, two requests get the identifiers `2^63 - 1` and
`-2^63`, which are not increasing. -/
theorem serveAll_session_identifiers_wrap :
    (serveAll tunnelAck nearOverflow
      [(ResponseWriter.fresh, sampleGet), (ResponseWriter.fresh, sampleGet)]).map Outcome.sess =
      [9223372036854775807, -9223372036854775808] ∧
    ¬ ((serveAll tunnelAck nearOverflow
      [(ResponseWriter.fresh, sampleGet), (ResponseWriter.fresh, sampleGet)]).map
        Outcome.sess).Pairwise (fun a b => a < b) := by
  have hids : (serveAll tunnelAck nearOverflow
      [(ResponseWriter.fresh, sampleGet), (ResponseWriter.fresh, sampleGet)]).map Outcome.sess =
      [9223372036854775807, -9223372036854775808] := by
    simp only [serveAll, List.map_cons, List.map_nil, ServeHTTP_sess,
      ServeHTTP_proxy tunnelAck _ _ _ (fun _ _ _ _ => rfl)]
    decide
  refine ⟨hids, ?_⟩
  rw [hids]
  decide

end GoProxy
